import Mathlib

/-!
Verification development for the retrieval-augmented orchestration layer of
the legal-adviser application.  The definitions below are shallow embeddings
of the TypeScript sources (`src/lib/semantic-search.ts`,
`src/lib/langchain-api-services.ts`, and the API wrapper module): pure
functions become Lean functions, the module-level vector-store cache becomes
explicit state passing, fallible operations return `Option`/`Except`, and
floating-point relevance scores are modelled as rationals (the code only
compares and averages them).  External collaborators (the embedding provider,
the model provider, the text splitter library) are passed in as function
parameters, exactly at the interface boundary the code uses them.
-/

namespace LegalAdviser

/-- Categories of content chunks, mirroring the `type` union of the
`ClauseChunk` interface in `semantic-search.ts`. -/
inductive ChunkType
  | simplified
  | risky_terms
  | government_articles
  | original
  deriving DecidableEq, Repr

/-- Lowercase name of a chunk type, as the string literals of the union. -/
def chunkTypeName : ChunkType → String
  | ChunkType.simplified => "simplified"
  | ChunkType.risky_terms => "risky_terms"
  | ChunkType.government_articles => "government_articles"
  | ChunkType.original => "original"

/-- Metadata carried by each chunk (`ClauseChunk.metadata`). -/
structure ChunkMetadata where
  chunkIndex : Nat
  source : String
  type : ChunkType
  relevanceScore : Option ℚ := none
  deriving DecidableEq, Repr

/-- A content fragment prepared for vectorization (`ClauseChunk`). -/
structure ClauseChunk where
  content : String
  metadata : ChunkMetadata
  deriving DecidableEq, Repr

/-- The chunk-set part of a cached vector store (`VectorStoreData`).  The
`MemoryVectorStore` and embeddings handle are modelled by the similarity
search function passed to `retrieveRelevantContext`; `buildId` models the
object identity of the entry (each build allocates a fresh object). -/
structure VectorStoreData where
  buildId : Nat
  chunks : List ClauseChunk
  deriving DecidableEq, Repr

/-- Options record of `retrieveRelevantContext`, with the source defaults
`maxResults = 3`, `relevanceThreshold = 0.7`, `includeMetadata = true`. -/
structure RetrieveOptions where
  maxResults : Nat := 3
  relevanceThreshold : ℚ := 7 / 10
  includeMetadata : Bool := true
  deriving Repr

/-- Result record of `retrieveRelevantContext`. -/
structure RetrieveResult where
  relevantChunks : List ClauseChunk
  contextSummary : String
  totalChunks : Nat
  averageRelevance : ℚ
  deriving DecidableEq, Repr

/-- The per-hit mapping step of `retrieveRelevantContext`: look the returned
document up among the store's chunks by content equality and attach the
relevance score; fall back to a synthetic chunk when not found. -/
def attachScore (vectorStoreData : VectorStoreData) (hit : String × ℚ) :
    ClauseChunk :=
  match vectorStoreData.chunks.find? (fun c => c.content == hit.1) with
  | some c =>
      { c with metadata := { c.metadata with relevanceScore := some hit.2 } }
  | none =>
      { content := hit.1,
        metadata :=
          { chunkIndex := 0, source := "unknown", type := ChunkType.original,
            relevanceScore := some hit.2 } }

/-- Relevance score stored in a chunk, defaulting to 0 when absent, as the
`(chunk.metadata.relevanceScore || 0)` read in the average computation. -/
def chunkScore (c : ClauseChunk) : ℚ :=
  c.metadata.relevanceScore.getD 0

/-- Shallow embedding of `retrieveRelevantContext` from
`semantic-search.ts`.  The similarity search
(`vectorStoreData.vectorStore.similaritySearchWithScore`) is the injected
`search` parameter: it receives the question and the candidate count and
returns `some` hits (document page content paired with score) on success or
`none` when the provider fails, in which case the catch-block fallback path
runs. -/
def retrieveRelevantContext
    (search : String → Nat → Option (List (String × ℚ)))
    (question : String) (vectorStoreData : VectorStoreData)
    (options : RetrieveOptions) : RetrieveResult :=
  match search question (options.maxResults * 2) with
  | some searchResults =>
      let relevantResults :=
        ((searchResults.filter
            (fun p => options.relevanceThreshold ≤ p.2)).take
          options.maxResults).map (attachScore vectorStoreData)
      let contextSummary :=
        String.intercalate "\n\n"
          (relevantResults.enum.map (fun p =>
            let labelPrefix :=
              if options.includeMetadata then
                "[" ++ (chunkTypeName p.2.metadata.type).toUpper ++ "] "
              else ""
            toString (p.1 + 1) ++ ". " ++ labelPrefix ++ p.2.content))
      let averageRelevance : ℚ :=
        if relevantResults.length > 0 then
          (relevantResults.foldl (fun s c => s + chunkScore c) 0) /
            (relevantResults.length : ℚ)
        else 0
      { relevantChunks := relevantResults, contextSummary := contextSummary,
        totalChunks := vectorStoreData.chunks.length,
        averageRelevance := averageRelevance }
  | none =>
      let fallbackChunks := vectorStoreData.chunks.take options.maxResults
      { relevantChunks := fallbackChunks,
        contextSummary :=
          String.intercalate "\n\n" (fallbackChunks.map (fun c => c.content)),
        totalChunks := vectorStoreData.chunks.length,
        averageRelevance := 0 }

/-- One risky-term item of the analysis data handed to the semantic layer
(`riskyTerms` element type in `createClauseVectorStore`'s signature). -/
structure RiskyTermItem where
  term : String
  severity : String
  explanation : String
  deriving DecidableEq, Repr

/-- One legal-reference item (`governmentArticles` element type). -/
structure ArticleItem where
  title : String
  url : String
  relevance : String
  deriving DecidableEq, Repr

/-- The analysis facets passed to `createClauseVectorStore`. -/
structure AnalysisData where
  simplifiedExplanation : String
  riskyTerms : List RiskyTermItem
  governmentArticles : List ArticleItem
  deriving DecidableEq, Repr

/-- Character of the standard base64 alphabet at index `n < 64`. -/
def base64Digit (n : Nat) : Char :=
  if n < 26 then Char.ofNat (65 + n)
  else if n < 52 then Char.ofNat (97 + (n - 26))
  else if n < 62 then Char.ofNat (48 + (n - 52))
  else if n = 62 then '+'
  else '/'

/-- Base64 encoding of a byte sequence, with padding, as produced by the
browser builtin `btoa`. -/
def base64Encode : List Nat → List Char
  | [] => []
  | [a] =>
      [base64Digit (a / 4 % 64), base64Digit (a % 4 * 16), '=', '=']
  | [a, b] =>
      [base64Digit (a / 4 % 64), base64Digit ((a % 4 * 16 + b / 16) % 64),
       base64Digit (b % 16 * 4), '=']
  | a :: b :: c :: rest =>
      base64Digit (a / 4 % 64) :: base64Digit ((a % 4 * 16 + b / 16) % 64) ::
        base64Digit ((b % 16 * 4 + c / 64) % 64) :: base64Digit (c % 64) ::
          base64Encode rest

/-- Model of the browser builtin `btoa` used by `generateCacheKey`: base64
over the string's code points (latin-1 semantics; the sources only feed it
ASCII text). -/
def btoa (s : String) : String :=
  String.mk (base64Encode (s.toList.map Char.toNat))

/-- Hexadecimal digit character (lowercase), for JSON string escapes. -/
def hexDigit (n : Nat) : Char :=
  if n < 10 then Char.ofNat (48 + n) else Char.ofNat (87 + n)

/-- Escape of a single character inside a JSON string literal, following
`JSON.stringify`. -/
def jsonEscapeChar (c : Char) : List Char :=
  if c = '"' then ['\\', '"']
  else if c = '\\' then ['\\', '\\']
  else if c = '\n' then ['\\', 'n']
  else if c = '\r' then ['\\', 'r']
  else if c = '\t' then ['\\', 't']
  else if c = Char.ofNat 8 then ['\\', 'b']
  else if c = Char.ofNat 12 then ['\\', 'f']
  else if c.toNat < 32 then
    ['\\', 'u', '0', '0', hexDigit (c.toNat / 16), hexDigit (c.toNat % 16)]
  else [c]

/-- A JSON string literal for `s`, as `JSON.stringify` renders strings. -/
def jsonQuote (s : String) : String :=
  "\"" ++ String.mk (s.toList.map jsonEscapeChar).flatten ++ "\""

/-- A JSON object from already-rendered field values, in field order. -/
def jsonObj (fields : List (String × String)) : String :=
  "\x7b" ++
    String.intercalate ","
      (fields.map (fun f => jsonQuote f.1 ++ ":" ++ f.2)) ++ "\x7d"

/-- A JSON array from already-rendered elements. -/
def jsonArrRender (items : List String) : String :=
  "[" ++ String.intercalate "," items ++ "]"

/-- Rendering of one risky-term item, field order of the interface. -/
def stringifyRiskyTerm (t : RiskyTermItem) : String :=
  jsonObj [("term", jsonQuote t.term), ("severity", jsonQuote t.severity),
           ("explanation", jsonQuote t.explanation)]

/-- Rendering of one legal-reference item, field order of the interface. -/
def stringifyArticle (a : ArticleItem) : String :=
  jsonObj [("title", jsonQuote a.title), ("url", jsonQuote a.url),
           ("relevance", jsonQuote a.relevance)]

/-- Model of `JSON.stringify(analysisData)` as invoked by
`generateCacheKey`, with the property order of the analysis-data object. -/
def stringifyAnalysisData (d : AnalysisData) : String :=
  jsonObj
    [("simplifiedExplanation", jsonQuote d.simplifiedExplanation),
     ("riskyTerms", jsonArrRender (d.riskyTerms.map stringifyRiskyTerm)),
     ("governmentArticles",
      jsonArrRender (d.governmentArticles.map stringifyArticle))]

/-- Shallow embedding of `generateCacheKey` from `semantic-search.ts`: the
first 100 characters of the clause and the first 50 characters of the
serialized analysis data, each base64-encoded, joined by an underscore. -/
def generateCacheKey (originalClause : String)
    (analysisData : Option AnalysisData) : String :=
  let baseKey := btoa (originalClause.take 100)
  let analysisKey :=
    match analysisData with
    | some d => btoa ((stringifyAnalysisData d).take 50)
    | none => ""
  baseKey ++ "_" ++ analysisKey

/-- Chunk assembly of `createClauseVectorStore` (steps 1-4): split the
original clause, split the non-empty simplified explanation, and emit one
synthesized chunk per risky term and per legal reference.  The library text
splitter (`RecursiveCharacterTextSplitter.splitText`) is the injected
`splitText` parameter. -/
def buildChunks (splitText : String → List String) (originalClause : String)
    (analysisData : AnalysisData) : List ClauseChunk :=
  let originalChunks := (splitText originalClause).enum.map (fun p =>
    { content := p.2,
      metadata :=
        { chunkIndex := p.1, source := "original_clause",
          type := ChunkType.original } : ClauseChunk })
  let simplifiedChunks :=
    if analysisData.simplifiedExplanation ≠ "" then
      (splitText analysisData.simplifiedExplanation).enum.map (fun p =>
        { content := p.2,
          metadata :=
            { chunkIndex := p.1, source := "simplified_explanation",
              type := ChunkType.simplified } : ClauseChunk })
    else []
  let riskyChunks := analysisData.riskyTerms.enum.map (fun p =>
    { content :=
        "Risky Term: \"" ++ p.2.term ++ "\" (" ++ p.2.severity ++
          " severity) - " ++ p.2.explanation,
      metadata :=
        { chunkIndex := p.1, source := "risky_term_" ++ p.2.term,
          type := ChunkType.risky_terms } : ClauseChunk })
  let articleChunks := analysisData.governmentArticles.enum.map (fun p =>
    { content := "Legal Article: \"" ++ p.2.title ++ "\" - " ++ p.2.relevance,
      metadata :=
        { chunkIndex := p.1, source := "gov_article_" ++ toString p.1,
          type := ChunkType.government_articles } : ClauseChunk })
  originalChunks ++ simplifiedChunks ++ riskyChunks ++ articleChunks

/-- The module-level `vectorStoreCache` map, made explicit: entries in
insertion order (oldest first) plus a counter supplying fresh build
identities. -/
structure VectorStoreCache where
  entries : List (String × VectorStoreData)
  nextBuildId : Nat
  deriving DecidableEq, Repr

/-- The cache at module load: empty. -/
def emptyCache : VectorStoreCache := { entries := [], nextBuildId := 0 }

/-- Shallow embedding of `createClauseVectorStore`: look the cache key up;
on a hit return the cached entry unchanged; on a miss build a fresh store
(embedding every chunk), append it, and evict the oldest entry once the map
holds more than 10.  The returned boolean records whether a build (and hence
embedding-provider work) happened. -/
def createClauseVectorStore (splitText : String → List String)
    (cache : VectorStoreCache) (originalClause : String)
    (analysisData : AnalysisData) :
    VectorStoreData × VectorStoreCache × Bool :=
  let cacheKey := generateCacheKey originalClause (some analysisData)
  match cache.entries.find? (fun e => e.1 == cacheKey) with
  | some e => (e.2, cache, false)
  | none =>
      let storeData : VectorStoreData :=
        { buildId := cache.nextBuildId,
          chunks := buildChunks splitText originalClause analysisData }
      let inserted := cache.entries ++ [(cacheKey, storeData)]
      let limited := if inserted.length > 10 then inserted.drop 1 else inserted
      (storeData, { entries := limited, nextBuildId := cache.nextBuildId + 1 },
        true)

/-- Whitespace trim, modelling `String.prototype.trim` (and Lean's
`String.trim`) structurally over the character list so that concrete
evaluations reduce. -/
def trimString (s : String) : String :=
  String.mk
    (((s.toList.dropWhile Char.isWhitespace).reverse.dropWhile
        Char.isWhitespace).reverse)

/-- Lowercasing, modelling `String.prototype.toLowerCase` structurally over
the character list (the sources only compare ASCII severity labels). -/
def lowerString (s : String) : String :=
  String.mk (s.toList.map Char.toLower)

/-- Truthiness of an optional string field, as JavaScript evaluates
`term.term && term.severity && term.explanation`: an absent (`undefined` or
`null`) field and the empty string are falsy.  Parsed items are modelled at
the granularity the validators read them: each field either carries a string
or is absent. -/
def truthy : Option String → Bool
  | none => false
  | some s => s ≠ ""

/-- A risky-term item as it comes out of JSON parsing, before validation. -/
structure RawRiskyTerm where
  term : Option String
  severity : Option String
  explanation : Option String
  deriving DecidableEq, Repr

/-- A legal-reference item as it comes out of JSON parsing. -/
structure RawArticle where
  title : Option String
  url : Option String
  relevance : Option String
  deriving DecidableEq, Repr

/-- Shallow embedding of `validateRiskyTerms` from
`langchain-api-services.ts`: drop items missing (or empty in) any of the
three fields, trim `term` and `explanation`, and coerce `severity` to its
lowercase form when it is one of high/moderate/low and to `"moderate"`
otherwise. -/
def validateRiskyTerms (terms : List RawRiskyTerm) : List RiskyTermItem :=
  (terms.filter (fun t =>
      truthy t.term && truthy t.severity && truthy t.explanation)).map
    (fun t =>
      let sev := lowerString (t.severity.getD "")
      { term := trimString (t.term.getD ""),
        severity :=
          if sev = "high" ∨ sev = "moderate" ∨ sev = "low" then sev
          else "moderate",
        explanation := trimString (t.explanation.getD "") })

/-- Character allowed after the first character of a URL scheme. -/
def isSchemeChar (c : Char) : Bool :=
  c.isAlphanum || c = '+' || c = '-' || c = '.'

/-- Validity of a URL scheme: an ASCII letter followed by
letters/digits/`+`/`-`/`.`. -/
def isValidScheme : List Char → Bool
  | [] => false
  | c :: rest => c.isAlpha && rest.all isSchemeChar

/-- Split of a character list at its first colon, when one exists. -/
def splitAtColon : List Char → Option (List Char × List Char)
  | [] => none
  | c :: rest =>
      if c = ':' then some ([], rest)
      else (splitAtColon rest).map (fun p => (c :: p.1, p.2))

/-- Model of the WHATWG `new URL(input)` constructor's success condition at
the granularity these claims need: the trimmed input must contain a colon
preceded by a valid scheme, and for the special network schemes the
authority part must supply a non-empty host.  Inputs without any scheme
(such as `"not-a-url"`) fail; ordinary absolute URLs such as
`"https://example.com/x"` succeed. -/
def parsesAsURL (s : String) : Bool :=
  match splitAtColon (trimString s).toList with
  | none => false
  | some (scheme, rest) =>
      if isValidScheme scheme then
        let schemeStr := String.mk (scheme.map Char.toLower)
        if schemeStr = "http" ∨ schemeStr = "https" ∨ schemeStr = "ws" ∨
            schemeStr = "wss" ∨ schemeStr = "ftp" then
          let afterSlashes := rest.dropWhile (fun c => c = '/' || c = '\\')
          let host := afterSlashes.takeWhile
            (fun c => c ≠ '/' ∧ c ≠ '?' ∧ c ≠ '#' ∧ c ≠ '\\')
          !host.isEmpty
        else true
      else false

/-- Shallow embedding of `validateGovernmentArticles` from
`langchain-api-services.ts`: keep an item exactly when title, url and
relevance are all present (truthy) and the url parses as a URL, trimming
each kept field. -/
def validateGovernmentArticles (articles : List RawArticle) :
    List ArticleItem :=
  (articles.filter (fun a =>
      truthy a.title && truthy a.url && truthy a.relevance &&
        parsesAsURL (a.url.getD ""))).map
    (fun a =>
      { title := trimString (a.title.getD ""),
        url := trimString (a.url.getD ""),
        relevance := trimString (a.relevance.getD "") })

/-- JSON values, as produced by `JSON.parse` (numbers as rationals). -/
inductive Json
  | null
  | bool (b : Bool)
  | num (q : ℚ)
  | str (s : String)
  | arr (elems : List Json)
  | obj (fields : List (String × Json))
  deriving Repr

/-- JSON whitespace (the four characters the JSON grammar allows). -/
def isJsonWS (c : Char) : Bool :=
  c = ' ' || c = '\t' || c = '\n' || c = '\r'

/-- Drop of leading JSON whitespace. -/
def skipWS (cs : List Char) : List Char :=
  cs.dropWhile isJsonWS

/-- Value of a hexadecimal digit character. -/
def hexVal (c : Char) : Option Nat :=
  if '0' ≤ c ∧ c ≤ '9' then some (c.toNat - 48)
  else if 'a' ≤ c ∧ c ≤ 'f' then some (c.toNat - 87)
  else if 'A' ≤ c ∧ c ≤ 'F' then some (c.toNat - 55)
  else none

/-- Natural number denoted by a list of decimal digit characters. -/
def digitsToNat (l : List Char) : Nat :=
  l.foldl (fun acc c => acc * 10 + (c.toNat - 48)) 0

/-- Body of a JSON string literal, after the opening quote: returns the
decoded characters and the remainder after the closing quote.  Fuelled to
stay structurally recursive. -/
def parseStringBody : Nat → List Char → Option (List Char × List Char)
  | 0, _ => none
  | _ + 1, [] => none
  | fuel + 1, c :: rest =>
      if c = '"' then some ([], rest)
      else if c = '\\' then
        match rest with
        | [] => none
        | e :: rest2 =>
            let decoded : Option (Char × List Char) :=
              if e = '"' then some ('"', rest2)
              else if e = '\\' then some ('\\', rest2)
              else if e = '/' then some ('/', rest2)
              else if e = 'n' then some ('\n', rest2)
              else if e = 't' then some ('\t', rest2)
              else if e = 'r' then some ('\r', rest2)
              else if e = 'b' then some (Char.ofNat 8, rest2)
              else if e = 'f' then some (Char.ofNat 12, rest2)
              else if e = 'u' then
                match rest2 with
                | h1 :: h2 :: h3 :: h4 :: rest3 =>
                    match hexVal h1, hexVal h2, hexVal h3, hexVal h4 with
                    | some a, some b, some c3, some d =>
                        some (Char.ofNat (((a * 16 + b) * 16 + c3) * 16 + d),
                          rest3)
                    | _, _, _, _ => none
                | _ => none
              else none
            match decoded with
            | some (ch, rest') =>
                (parseStringBody fuel rest').map
                  (fun p => (ch :: p.1, p.2))
            | none => none
      else if c.toNat < 32 then none
      else (parseStringBody fuel rest).map (fun p => (c :: p.1, p.2))

/-- A JSON number at the head of the input, per the JSON grammar
(optional minus, integer part without leading zeros, optional fraction,
optional exponent). -/
def parseNumber (cs : List Char) : Option (ℚ × List Char) :=
  let signSplit : Bool × List Char :=
    match cs with
    | '-' :: r => (true, r)
    | _ => (false, cs)
  let neg := signSplit.1
  let cs1 := signSplit.2
  let intDigits := cs1.takeWhile Char.isDigit
  let rest1 := cs1.dropWhile Char.isDigit
  if intDigits.isEmpty then none
  else if intDigits.length > 1 ∧ intDigits.head? = some '0' then none
  else
    let intVal : ℚ := (digitsToNat intDigits : ℚ)
    let fracParsed : Option (ℚ × List Char) :=
      match rest1 with
      | '.' :: r =>
          let fracDigits := r.takeWhile Char.isDigit
          if fracDigits.isEmpty then none
          else
            some ((digitsToNat fracDigits : ℚ) /
              ((10 : ℚ) ^ fracDigits.length), r.dropWhile Char.isDigit)
      | _ => some (0, rest1)
    match fracParsed with
    | none => none
    | some (fracVal, rest2) =>
        let expParsed : Option (ℤ × List Char) :=
          match rest2 with
          | e :: r =>
              if e = 'e' ∨ e = 'E' then
                let expSignSplit : Bool × List Char :=
                  match r with
                  | '-' :: r2 => (true, r2)
                  | '+' :: r2 => (false, r2)
                  | _ => (false, r)
                let expDigits := expSignSplit.2.takeWhile Char.isDigit
                if expDigits.isEmpty then none
                else
                  some ((if expSignSplit.1 then
                      -(digitsToNat expDigits : ℤ)
                    else (digitsToNat expDigits : ℤ)),
                    expSignSplit.2.dropWhile Char.isDigit)
              else some (0, rest2)
          | [] => some (0, rest2)
        match expParsed with
        | none => none
        | some (expVal, rest3) =>
            let magnitude := (intVal + fracVal) * (10 : ℚ) ^ expVal
            some ((if neg then -magnitude else magnitude), rest3)

mutual

/-- A JSON value at the head of the input (after leading whitespace),
fuelled recursive-descent parser mirroring the `JSON.parse` grammar. -/
def parseJsonValue : Nat → List Char → Option (Json × List Char)
  | 0, _ => none
  | fuel + 1, cs =>
      match skipWS cs with
      | [] => none
      | c :: rest =>
          if c = 'n' then
            if rest.take 3 = ['u', 'l', 'l'] then
              some (Json.null, rest.drop 3)
            else none
          else if c = 't' then
            if rest.take 3 = ['r', 'u', 'e'] then
              some (Json.bool true, rest.drop 3)
            else none
          else if c = 'f' then
            if rest.take 4 = ['a', 'l', 's', 'e'] then
              some (Json.bool false, rest.drop 4)
            else none
          else if c = '"' then
            (parseStringBody (rest.length + 1) rest).map
              (fun p => (Json.str (String.mk p.1), p.2))
          else if c = '[' then
            match skipWS rest with
            | ']' :: rest2 => some (Json.arr [], rest2)
            | _ => (parseJsonItems fuel rest).map
                (fun p => (Json.arr p.1, p.2))
          else if c = Char.ofNat 123 then
            match skipWS rest with
            | c2 :: rest2 =>
                if c2 = Char.ofNat 125 then some (Json.obj [], rest2)
                else (parseJsonFields fuel rest).map
                  (fun p => (Json.obj p.1, p.2))
            | [] => none
          else
            (parseNumber (c :: rest)).map (fun p => (Json.num p.1, p.2))

/-- Comma-separated JSON array items, up to and including the closing
bracket. -/
def parseJsonItems : Nat → List Char → Option (List Json × List Char)
  | 0, _ => none
  | fuel + 1, cs =>
      match parseJsonValue fuel cs with
      | none => none
      | some (v, rest) =>
          match skipWS rest with
          | ',' :: rest2 =>
              (parseJsonItems fuel rest2).map (fun p => (v :: p.1, p.2))
          | ']' :: rest2 => some ([v], rest2)
          | _ => none

/-- Comma-separated JSON object members, up to and including the closing
brace. -/
def parseJsonFields : Nat → List Char → Option (List (String × Json) × List Char)
  | 0, _ => none
  | fuel + 1, cs =>
      match skipWS cs with
      | '"' :: rest =>
          match parseStringBody (rest.length + 1) rest with
          | none => none
          | some (key, rest2) =>
              match skipWS rest2 with
              | ':' :: rest3 =>
                  match parseJsonValue fuel rest3 with
                  | none => none
                  | some (v, rest4) =>
                      match skipWS rest4 with
                      | ',' :: rest5 =>
                          (parseJsonFields fuel rest5).map
                            (fun p => ((String.mk key, v) :: p.1, p.2))
                      | c :: rest5 =>
                          if c = Char.ofNat 125 then
                            some ([(String.mk key, v)], rest5)
                          else none
                      | [] => none
              | _ => none
      | _ => none

end

/-- Model of `JSON.parse`: parse one value and require only whitespace to
remain; `none` models a thrown `SyntaxError`. -/
def jsonParse (s : String) : Option Json :=
  match parseJsonValue (2 * s.toList.length + 16) s.toList with
  | some (v, rest) => if (skipWS rest).isEmpty then some v else none
  | none => none

/-- The backtick character (kept out of literals for hygiene). -/
def backtick : Char := Char.ofNat 96

/-- The opening curly brace character. -/
def openBrace : Char := Char.ofNat 123

/-- The closing curly brace character. -/
def closeBrace : Char := Char.ofNat 125

/-- JavaScript regex whitespace class, at the ASCII granularity the model
needs (space, tab, line feed, carriage return, vertical tab, form feed). -/
def isJsWS (c : Char) : Bool :=
  c = ' ' || c = '\t' || c = '\n' || c = '\r' || c = Char.ofNat 11 ||
    c = Char.ofNat 12

/-- Test whether the continuation matches the closing part of the fenced
regex: optional whitespace followed by three backticks. -/
def fenceCloseAt (cs : List Char) : Bool :=
  (cs.dropWhile isJsWS).take 3 = [backtick, backtick, backtick]

/-- Lazy scan for the fenced-regex group, over the content after the opening
bracket: the minimal extension ending at a closing bracket whose
continuation is whitespace-then-fence.  Returns the group characters (with
closing bracket). -/
def lazyGroupUpToFence : List Char → Option (List Char)
  | [] => none
  | c :: rest =>
      if c = ']' ∧ fenceCloseAt rest then some [c]
      else (lazyGroupUpToFence rest).map (fun l => c :: l)

/-- Match attempt for the fenced-code-block regex of `parseJSONResponse` at
one start position, capturing group 1 (the bracketed array text).  The
optional `json` tag is tried first (with it, then without), as the regex
engine backtracks. -/
def tryFenceAt (cs : List Char) : Option (List Char) :=
  if cs.take 3 = [backtick, backtick, backtick] then
    let afterTicks := cs.drop 3
    let attempt : List Char → Option (List Char) := fun body =>
      match body.dropWhile isJsWS with
      | c :: inner =>
          if c = '[' then
            (lazyGroupUpToFence inner).map (fun l => '[' :: l)
          else none
      | [] => none
    match
      (if afterTicks.take 4 = ['j', 's', 'o', 'n'] then
        attempt (afterTicks.drop 4)
      else none) with
    | some g => some g
    | none => attempt afterTicks
  else none

/-- Left-to-right scan of all start positions for the fenced regex. -/
def scanFence : List Char → Option (List Char)
  | [] => none
  | c :: rest =>
      match tryFenceAt (c :: rest) with
      | some g => some g
      | none => scanFence rest

/-- Model of the first fallback pattern of `parseJSONResponse`, the regex
matching a fenced code block containing an array; the result is the captured
bracketed text. -/
def extractCodeBlockArray (s : String) : Option String :=
  (scanFence s.toList).map String.mk

/-- Test whether the continuation matches optional whitespace followed by a
closing square bracket. -/
def closeBracketAt (cs : List Char) : Bool :=
  (cs.dropWhile isJsWS).take 1 = [']']

/-- Lazy scan for the array-like regex, over the content after an opening
brace: the minimal extension ending at a closing brace whose continuation is
whitespace-then-bracket.  Returns the matched characters through the final
bracket. -/
def lazyBraceUpToBracket : List Char → Option (List Char)
  | [] => none
  | c :: rest =>
      if c = closeBrace ∧ closeBracketAt rest then
        some (c :: (rest.takeWhile isJsWS ++ [']']))
      else (lazyBraceUpToBracket rest).map (fun l => c :: l)

/-- Match attempt for the array-like regex of `parseJSONResponse` at one
start position, returning the full matched text. -/
def tryArrayAt : List Char → Option (List Char)
  | [] => none
  | c :: rest =>
      if c = '[' then
        match rest.dropWhile isJsWS with
        | d :: inner =>
            if d = openBrace then
              (lazyBraceUpToBracket inner).map
                (fun l => '[' :: (rest.takeWhile isJsWS ++ (d :: l)))
            else none
        | [] => none
      else none

/-- Left-to-right scan of all start positions for the array-like regex. -/
def scanArrayLike : List Char → Option (List Char)
  | [] => none
  | c :: rest =>
      match tryArrayAt (c :: rest) with
      | some m => some m
      | none => scanArrayLike rest

/-- Model of the second fallback pattern of `parseJSONResponse`, the regex
locating the first top-level array-like substring; the result is the whole
match. -/
def extractArrayLike (s : String) : Option String :=
  (scanArrayLike s.toList).map String.mk

/-- Shallow embedding of `parseJSONResponse` from
`langchain-api-services.ts`, with its exact control flow: a direct parse; on
failure, if the fenced-block regex matches, parse its captured group, any
failure there being caught by the surrounding catch which yields the
fallback; only when no fenced block matched, try the array-like substring
the same way; otherwise the fallback.  The function is total: every path
returns a value. -/
def parseJSONResponse (response : String) (fallback : Json) : Json :=
  match jsonParse response with
  | some v => v
  | none =>
      match extractCodeBlockArray response with
      | some g => (jsonParse g).getD fallback
      | none =>
          match extractArrayLike response with
          | some m => (jsonParse m).getD fallback
          | none => fallback

/-- Modelled from the spec: the layered fallback as §4.5 words it — attempt
direct parse; on failure, attempt to extract a fenced code block containing
an array (and parse it); on failure, attempt to locate the first top-level
array-like substring (and parse it); on total failure, the fallback.  Under
this reading a parse failure at the fenced-block layer still falls through
to the array-substring layer.  Stated for the refinement comparison with
`parseJSONResponse`. -/
def parseJSONResponseSpec (response : String) (fallback : Json) : Json :=
  match jsonParse response with
  | some v => v
  | none =>
      match (extractCodeBlockArray response).bind jsonParse with
      | some v => v
      | none =>
          match (extractArrayLike response).bind jsonParse with
          | some v => v
          | none => fallback

/-- String value of a JSON object field, when present with a string value;
models the validators' reads of `term.term` and friends. -/
def jsFieldString (fields : List (String × Json)) (key : String) :
    Option String :=
  match fields.find? (fun f => f.1 == key) with
  | some (_, Json.str s) => some s
  | _ => none

/-- Conversion of one parsed JSON element to the raw risky-term view the
validator reads. -/
def rawTermOfJson : Json → RawRiskyTerm
  | Json.obj fields =>
      { term := jsFieldString fields "term",
        severity := jsFieldString fields "severity",
        explanation := jsFieldString fields "explanation" }
  | _ => { term := none, severity := none, explanation := none }

/-- Conversion of one parsed JSON element to the raw legal-reference view
the validator reads. -/
def rawArticleOfJson : Json → RawArticle
  | Json.obj fields =>
      { title := jsFieldString fields "title",
        url := jsFieldString fields "url",
        relevance := jsFieldString fields "relevance" }
  | _ => { title := none, url := none, relevance := none }

/-- Risky-term validation on a parsed JSON value, including the
`Array.isArray` guard of the source: non-arrays validate to the empty
list. -/
def validateRiskyTermsJson : Json → List RiskyTermItem
  | Json.arr xs => validateRiskyTerms (xs.map rawTermOfJson)
  | _ => []

/-- Legal-reference validation on a parsed JSON value, including the
`Array.isArray` guard. -/
def validateGovernmentArticlesJson : Json → List ArticleItem
  | Json.arr xs => validateGovernmentArticles (xs.map rawArticleOfJson)
  | _ => []

/-- The pure assembly step of `analyzeClause` (after the three model
responses settle): trim the explanation, and parse-and-validate the two
JSON-shaped facets with the empty-array fallback. -/
def assembleAnalysisResponse (simplifiedExplanation riskyTermsResponse
    governmentArticlesResponse : String) : AnalysisData :=
  { simplifiedExplanation := trimString simplifiedExplanation,
    riskyTerms :=
      validateRiskyTermsJson
        (parseJSONResponse riskyTermsResponse (Json.arr [])),
    governmentArticles :=
      validateGovernmentArticlesJson
        (parseJSONResponse governmentArticlesResponse (Json.arr [])) }

/-- The `APIConfig` record of the wrapper module. -/
structure APIConfig where
  useLangChain : Bool
  enableBatchProcessing : Bool
  enableAdvancedPrompts : Bool
  enableSemanticSearch : Bool
  deriving DecidableEq, Repr

/-- The wrapper module's default configuration. -/
def defaultAPIConfig : APIConfig :=
  { useLangChain := true, enableBatchProcessing := true,
    enableAdvancedPrompts := true, enableSemanticSearch := true }

/-- One model-provider request, tagged by the analysis facet (or follow-up)
that issues it. -/
inductive ModelCall
  | simplification (clause : String)
  | riskyTermsExtraction (clause : String)
  | governmentArticlesLookup (clause : String)
  deriving DecidableEq, Repr

/-- The three concurrent facet requests `analyzeClause` issues for one
clause. -/
def analyzeClauseModelCalls (clause : String) : List ModelCall :=
  [ModelCall.simplification clause, ModelCall.riskyTermsExtraction clause,
   ModelCall.governmentArticlesLookup clause]

/-- The model-call fan-out of `analyzeBatchClauses`: every clause is
analyzed (three facet requests each); the function imposes no limit on the
number of clauses. -/
def analyzeBatchClauses (clauses : List String) : List ModelCall :=
  (clauses.map analyzeClauseModelCalls).flatten

/-- Shallow embedding of `processBatchClauses` from the wrapper module: the
two configuration-toggle guards, in source order, then the batch fan-out.
An `Except.error` models the thrown `Error`; the `ok` value is the list of
model calls the batch run issues. -/
def processBatchClauses (config : APIConfig) (clauses : List String) :
    Except String (List ModelCall) :=
  if !config.useLangChain then
    Except.error "Batch processing is only available with LangChain API"
  else if !config.enableBatchProcessing then
    Except.error "Batch processing is disabled in configuration"
  else
    Except.ok (analyzeBatchClauses clauses)

/-- The answering path `submitFollowupQuestion` (wrapper) routes to, with
the arguments it passes along. -/
inductive FollowupRoute
  | enhanced (question originalClause : String) (analysisData : AnalysisData)
      (apiKey : String)
  | langchain (question originalClause : String)
  | traditional (question originalClause : String)
  deriving DecidableEq, Repr

/-- Shallow embedding of the wrapper's `submitFollowupQuestion` dispatch:
with LangChain and semantic search enabled and analysis data supplied, the
enhanced semantic path is invoked with the empty string as API key; with
LangChain alone, the LangChain follow-up path; otherwise the traditional
path. -/
def submitFollowupQuestion (config : APIConfig)
    (question originalClause : String) (analysisData : Option AnalysisData) :
    FollowupRoute :=
  match analysisData with
  | some d =>
      if config.useLangChain && config.enableSemanticSearch then
        FollowupRoute.enhanced question originalClause d ""
      else if config.useLangChain then
        FollowupRoute.langchain question originalClause
      else
        FollowupRoute.traditional question originalClause
  | none =>
      if config.useLangChain then
        FollowupRoute.langchain question originalClause
      else
        FollowupRoute.traditional question originalClause

/-- One provider-facing request issued while answering a follow-up, tagged
with the API key the issuing instance was constructed with. -/
inductive ProviderCall
  | embed (apiKey : String)
  | model (apiKey : String)
  deriving DecidableEq, Repr

/-- Whether a provider call is an embedding-provider call. -/
def ProviderCall.isEmbed : ProviderCall → Bool
  | ProviderCall.embed _ => true
  | ProviderCall.model _ => false

/-- The embeddings handle `createEmbeddings` constructs. -/
structure EmbeddingsInstance where
  apiKey : String
  model : String
  deriving DecidableEq, Repr

/-- Shallow embedding of `createEmbeddings` from `semantic-search.ts`. -/
def createEmbeddings (apiKey : String) : EmbeddingsInstance :=
  { apiKey := apiKey, model := "embedding-001" }

/-- The chat-model handle `createLLMInstance` constructs. -/
structure LLMInstance where
  model : String
  apiKey : String
  temperature : ℚ
  topP : ℚ
  topK : Nat
  maxOutputTokens : Nat
  deriving DecidableEq, Repr

/-- Shallow embedding of `createLLMInstance` from
`langchain-api-services.ts`. -/
def createLLMInstance (apiKey : String) : LLMInstance :=
  { model := "gemini-2.0-flash", apiKey := apiKey, temperature := 2 / 10,
    topP := 8 / 10, topK := 40, maxOutputTokens := 2048 }

/-- The prompt the LangChain follow-up path sends: its `followupTemplate`
instantiated with the full original clause and the question. -/
def langchainFollowupPrompt (question originalClause : String) : String :=
  "\nYou are a helpful legal assistant providing concise answers about legal clauses.\n\nOriginal Legal Clause: \"" ++
    originalClause ++ "\"\n\nUser's Question: \"" ++ question ++
    "\"\n\nInstructions:\n- Provide a CONCISE and DIRECT answer (2-3 sentences maximum)\n- Focus only on answering the specific question asked\n- Use simple, clear language that non-lawyers can understand\n- If it requires a yes/no answer, start with that\n- Stay focused on the legal clause context\n- Avoid unnecessary explanations or examples\n\nAnswer:\n"

/-- Provider calls each follow-up route issues.  The enhanced semantic path
embeds the chunk set on a cache miss and the question on every query, and
invokes the chat model, all through instances built with the API key it was
handed; the LangChain and traditional paths invoke the chat model once with
the credentials-store key and perform no embedding work. -/
def routeProviderCalls (storeApiKey : String) (cacheHit : Bool) :
    FollowupRoute → List ProviderCall
  | FollowupRoute.enhanced _ _ _ apiKey =>
      (if cacheHit then [] else [ProviderCall.embed apiKey]) ++
        [ProviderCall.embed apiKey, ProviderCall.model apiKey]
  | FollowupRoute.langchain _ _ => [ProviderCall.model storeApiKey]
  | FollowupRoute.traditional _ _ => [ProviderCall.model storeApiKey]

/-! Theorems. -/

/-- Both branches of the hit-mapping step attach the hit's score. -/
theorem attachScore_relevanceScore (vsd : VectorStoreData)
    (hit : String × ℚ) :
    (attachScore vsd hit).metadata.relevanceScore = some hit.2 := by
  unfold attachScore
  cases vsd.chunks.find? (fun c => c.content == hit.1) <;> rfl

/-- The stored score of a mapped hit is the hit's raw score. -/
theorem chunkScore_attachScore (vsd : VectorStoreData) (hit : String × ℚ) :
    chunkScore (attachScore vsd hit) = hit.2 := by
  unfold chunkScore
  rw [attachScore_relevanceScore]
  rfl

/-- C1: when the similarity query succeeds, `retrieveRelevantContext`
consumes the query's answer for `2 × maxResults` candidates, and the
returned chunks are the threshold-filtered, `maxResults`-truncated hits: at
most `maxResults` of them, each carrying a relevance score at least
`relevanceThreshold`, and (given the index returns candidates in descending
score order) ordered by descending score. -/
theorem retrieveRelevantContext_c1
    (search : String → Nat → Option (List (String × ℚ)))
    (question : String) (vsd : VectorStoreData) (options : RetrieveOptions)
    (searchResults : List (String × ℚ))
    (hq : search question (options.maxResults * 2) = some searchResults) :
    (retrieveRelevantContext search question vsd options).relevantChunks =
      ((searchResults.filter
          (fun p => options.relevanceThreshold ≤ p.2)).take
        options.maxResults).map (attachScore vsd) ∧
    (retrieveRelevantContext search question vsd
        options).relevantChunks.length ≤ options.maxResults ∧
    (∀ c ∈ (retrieveRelevantContext search question vsd
        options).relevantChunks,
      ∃ s : ℚ, c.metadata.relevanceScore = some s ∧
        options.relevanceThreshold ≤ s) ∧
    (searchResults.Pairwise (fun a b => b.2 ≤ a.2) →
      (retrieveRelevantContext search question vsd
          options).relevantChunks.Pairwise
        (fun c d => chunkScore d ≤ chunkScore c)) := by
  have hchunks : (retrieveRelevantContext search question vsd
      options).relevantChunks =
      ((searchResults.filter
          (fun p => options.relevanceThreshold ≤ p.2)).take
        options.maxResults).map (attachScore vsd) := by
    unfold retrieveRelevantContext
    rw [hq]
  refine ⟨hchunks, ?_, ?_, ?_⟩
  · rw [hchunks, List.length_map, List.length_take]
    exact inf_le_left
  · intro c hc
    rw [hchunks] at hc
    obtain ⟨p, hp, rfl⟩ := List.mem_map.mp hc
    refine ⟨p.2, attachScore_relevanceScore vsd p, ?_⟩
    have hp' := List.mem_of_mem_take hp
    have hpf := (List.mem_filter.mp hp').2
    simpa using hpf
  · intro hsorted
    rw [hchunks, List.pairwise_map]
    have h1 := hsorted.filter
      (p := fun p => decide (options.relevanceThreshold ≤ p.2))
    have h2 := h1.sublist (List.take_sublist options.maxResults _)
    exact h2.imp (fun hab => by
      rw [chunkScore_attachScore, chunkScore_attachScore]
      exact hab)

/-- Concrete search hits used to witness the retrieval theorems. -/
def sampleSearchHits : List (String × ℚ) :=
  [("alpha", 9 / 10), ("beta", 8 / 10)]

/-- A small concrete vector store used by the witnesses. -/
def sampleStore : VectorStoreData :=
  { buildId := 0,
    chunks :=
      [{ content := "alpha",
         metadata :=
           { chunkIndex := 0, source := "original_clause",
             type := ChunkType.original } },
       { content := "beta",
         metadata :=
           { chunkIndex := 1, source := "original_clause",
             type := ChunkType.original } },
       { content := "gamma",
         metadata :=
           { chunkIndex := 2, source := "original_clause",
             type := ChunkType.original } }] }

/-- Witness for C1 at a concrete two-hit query answer. -/
theorem retrieveRelevantContext_c1_witness :
    (retrieveRelevantContext (fun _ _ => some sampleSearchHits) "q"
        sampleStore {}).relevantChunks.length ≤ 3 :=
  (retrieveRelevantContext_c1 (fun _ _ => some sampleSearchHits) "q"
    sampleStore {} sampleSearchHits rfl).2.1

/-- C3: when the similarity query fails, `retrieveRelevantContext` does not
propagate the failure: it returns (as a plain value, not an error) the first
`maxResults` chunks of the full chunk set in their original order, with a
summary joined from their contents and `averageRelevance = 0`. -/
theorem retrieveRelevantContext_c3
    (search : String → Nat → Option (List (String × ℚ)))
    (question : String) (vsd : VectorStoreData) (options : RetrieveOptions)
    (hq : search question (options.maxResults * 2) = none) :
    retrieveRelevantContext search question vsd options =
      { relevantChunks := vsd.chunks.take options.maxResults,
        contextSummary := String.intercalate "\n\n"
          ((vsd.chunks.take options.maxResults).map (fun c => c.content)),
        totalChunks := vsd.chunks.length,
        averageRelevance := 0 } := by
  unfold retrieveRelevantContext
  rw [hq]

/-- Witness for C3 at a concretely failing similarity query. -/
theorem retrieveRelevantContext_c3_witness :
    retrieveRelevantContext (fun _ _ => none) "q" sampleStore {} =
      { relevantChunks := sampleStore.chunks.take 3,
        contextSummary := String.intercalate "\n\n"
          ((sampleStore.chunks.take 3).map (fun c => c.content)),
        totalChunks := sampleStore.chunks.length,
        averageRelevance := 0 } :=
  retrieveRelevantContext_c3 (fun _ _ => none) "q" sampleStore {} rfl

/-- Finding nothing in the first part of an append defers to the second. -/
theorem find?_append_none {α : Type} (p : α → Bool) (l₁ l₂ : List α)
    (h : l₁.find? p = none) : (l₁ ++ l₂).find? p = l₂.find? p := by
  rw [List.find?_append, h, Option.none_or]

/-- Finding nothing in a list means finding nothing in its tail. -/
theorem find?_tail_none {α : Type} (p : α → Bool) (l : List α)
    (h : l.find? p = none) : l.tail.find? p = none := by
  rw [List.find?_eq_none] at h ⊢
  exact fun x hx => h x ((List.tail_sublist l).subset hx)

/-- The tail of an append with a non-empty front distributes. -/
theorem tail_append_single {α : Type} (l : List α) (x : α) (h : l ≠ []) :
    (l ++ [x]).tail = l.tail ++ [x] := by
  cases l with
  | nil => exact absurd rfl h
  | cons a t => rfl

/-- The store a cache miss of `createClauseVectorStore` builds (the local
`storeData` of the source). -/
def freshStore (splitText : String → List String) (cache : VectorStoreCache)
    (clause : String) (d : AnalysisData) : VectorStoreData :=
  { buildId := cache.nextBuildId, chunks := buildChunks splitText clause d }

/-- A cache hit returns the stored entry and leaves the cache unchanged. -/
theorem createClauseVectorStore_hit (splitText : String → List String)
    (cache : VectorStoreCache) (clause : String) (d : AnalysisData)
    (e : String × VectorStoreData)
    (hfind : cache.entries.find?
      (fun x => x.1 == generateCacheKey clause (some d)) = some e) :
    createClauseVectorStore splitText cache clause d = (e.2, cache, false) := by
  simp [createClauseVectorStore, hfind]

/-- A cache miss on a cache strictly below the ceiling builds a fresh store
and appends it without eviction. -/
theorem createClauseVectorStore_miss_small (splitText : String → List String)
    (cache : VectorStoreCache) (clause : String) (d : AnalysisData)
    (hsmall : cache.entries.length < 10)
    (hfind : cache.entries.find?
      (fun x => x.1 == generateCacheKey clause (some d)) = none) :
    createClauseVectorStore splitText cache clause d =
      (freshStore splitText cache clause d,
       ⟨cache.entries ++
          [(generateCacheKey clause (some d),
            freshStore splitText cache clause d)],
        cache.nextBuildId + 1⟩,
       true) := by
  have hcond : ¬ (cache.entries.length + 1 > 10) := by omega
  simp [createClauseVectorStore, hfind, freshStore, hcond]

/-- A cache miss on a full cache builds a fresh store, appends it, and
evicts the oldest-inserted entry. -/
theorem createClauseVectorStore_miss_full (splitText : String → List String)
    (cache : VectorStoreCache) (clause : String) (d : AnalysisData)
    (hfull : cache.entries.length = 10)
    (hfind : cache.entries.find?
      (fun x => x.1 == generateCacheKey clause (some d)) = none) :
    createClauseVectorStore splitText cache clause d =
      (freshStore splitText cache clause d,
       ⟨cache.entries.tail ++
          [(generateCacheKey clause (some d),
            freshStore splitText cache clause d)],
        cache.nextBuildId + 1⟩,
       true) := by
  have hcond : cache.entries.length + 1 > 10 := by omega
  have hne : cache.entries ≠ [] := by
    intro h
    rw [h] at hfull
    simp at hfull
  simp only [createClauseVectorStore, hfind, List.length_append,
    List.length_cons, List.length_nil, Nat.add_zero, hcond, if_pos,
    List.drop_one, gt_iff_lt]
  rw [tail_append_single _ _ hne]
  exact rfl

/-- A cache miss hands out the store whose build identity is the cache's
counter, and advances the counter. -/
theorem createClauseVectorStore_miss_buildId
    (splitText : String → List String) (cache : VectorStoreCache)
    (clause : String) (d : AnalysisData)
    (hfind : cache.entries.find?
      (fun x => x.1 == generateCacheKey clause (some d)) = none) :
    (createClauseVectorStore splitText cache clause d).1.buildId =
      cache.nextBuildId ∧
    (createClauseVectorStore splitText cache clause d).2.1.nextBuildId =
      cache.nextBuildId + 1 := by
  simp [createClauseVectorStore, hfind]

/-- After a miss on a cache within the bound, the new entry is findable
under its key. -/
theorem createClauseVectorStore_miss_findable
    (splitText : String → List String) (cache : VectorStoreCache)
    (clause : String) (d : AnalysisData)
    (hbound : cache.entries.length ≤ 10)
    (hfind : cache.entries.find?
      (fun x => x.1 == generateCacheKey clause (some d)) = none) :
    (createClauseVectorStore splitText cache clause d).2.1.entries.find?
      (fun x => x.1 == generateCacheKey clause (some d)) =
      some (generateCacheKey clause (some d),
        (createClauseVectorStore splitText cache clause d).1) := by
  rcases Nat.lt_or_ge cache.entries.length 10 with hsmall | hge
  · rw [createClauseVectorStore_miss_small splitText cache clause d hsmall
      hfind]
    rw [find?_append_none _ _ _ hfind]
    simp
  · have hfull : cache.entries.length = 10 := Nat.le_antisymm hbound hge
    rw [createClauseVectorStore_miss_full splitText cache clause d hfull
      hfind]
    rw [find?_append_none _ _ _ (find?_tail_none _ _ hfind)]
    simp

/-- C2 (amended): `createClauseVectorStore` reuses the cached entry on a
repeated call with identical inputs (same store back, cache unchanged, no
rebuild and hence no re-embedding), keeps the cache within 10 entries,
evicts the oldest-inserted entry when an insertion overflows the ceiling,
and returns a distinct fresh store when both of two consecutive calls miss
the cache.  Distinctness for arbitrary differing inputs fails because the
cache key truncates its inputs — see the counterexample. -/
theorem createClauseVectorStore_c2 (splitText : String → List String)
    (cache : VectorStoreCache) (clause : String) (d : AnalysisData)
    (hbound : cache.entries.length ≤ 10) :
    ((createClauseVectorStore splitText
        (createClauseVectorStore splitText cache clause d).2.1 clause d).1 =
      (createClauseVectorStore splitText cache clause d).1 ∧
     (createClauseVectorStore splitText
        (createClauseVectorStore splitText cache clause d).2.1 clause
          d).2.1 =
      (createClauseVectorStore splitText cache clause d).2.1 ∧
     (createClauseVectorStore splitText
        (createClauseVectorStore splitText cache clause d).2.1 clause
          d).2.2 = false) ∧
    (createClauseVectorStore splitText cache clause
        d).2.1.entries.length ≤ 10 ∧
    (cache.entries.find?
        (fun e => e.1 == generateCacheKey clause (some d)) = none →
      cache.entries.length = 10 →
      (createClauseVectorStore splitText cache clause d).2.1.entries =
        cache.entries.tail ++
          [(generateCacheKey clause (some d),
            (createClauseVectorStore splitText cache clause d).1)]) ∧
    (∀ (clause₂ : String) (d₂ : AnalysisData),
      cache.entries.find?
        (fun e => e.1 == generateCacheKey clause (some d)) = none →
      (createClauseVectorStore splitText cache clause
          d).2.1.entries.find?
        (fun e => e.1 == generateCacheKey clause₂ (some d₂)) = none →
      (createClauseVectorStore splitText
          (createClauseVectorStore splitText cache clause d).2.1 clause₂
            d₂).1 ≠
        (createClauseVectorStore splitText cache clause d).1) := by
  cases hfind : cache.entries.find?
      (fun e => e.1 == generateCacheKey clause (some d)) with
  | some e =>
      have h1 := createClauseVectorStore_hit splitText cache clause d e hfind
      refine ⟨?_, ?_, ?_, ?_⟩
      · rw [h1, h1]
        exact ⟨rfl, rfl, rfl⟩
      · rw [h1]
        exact hbound
      · intro h _
        exact Option.noConfusion h
      · intro clause₂ d₂ h _
        exact Option.noConfusion h
  | none =>
      have hfound := createClauseVectorStore_miss_findable splitText cache
        clause d hbound hfind
      have h2 := createClauseVectorStore_hit splitText
        (createClauseVectorStore splitText cache clause d).2.1 clause d
        (generateCacheKey clause (some d),
          (createClauseVectorStore splitText cache clause d).1) hfound
      refine ⟨⟨by rw [h2], by rw [h2], by rw [h2]⟩, ?_, ?_, ?_⟩
      · rcases Nat.lt_or_ge cache.entries.length 10 with hsmall | hge
        · rw [createClauseVectorStore_miss_small splitText cache clause d
            hsmall hfind]
          simp only [List.length_append, List.length_cons, List.length_nil]
          omega
        · have hfull : cache.entries.length = 10 := Nat.le_antisymm hbound hge
          rw [createClauseVectorStore_miss_full splitText cache clause d
            hfull hfind]
          simp only [List.length_append, List.length_cons, List.length_nil,
            List.length_tail]
          omega
      · intro _ hten
        rw [createClauseVectorStore_miss_full splitText cache clause d hten
          hfind]
      · intro clause₂ d₂ _ hmiss2
        have hb1 := (createClauseVectorStore_miss_buildId splitText cache
          clause d hfind).1
        have hnext := (createClauseVectorStore_miss_buildId splitText cache
          clause d hfind).2
        have hb2 := (createClauseVectorStore_miss_buildId splitText
          (createClauseVectorStore splitText cache clause d).2.1 clause₂ d₂
          hmiss2).1
        intro heq
        rw [heq, hb1, hnext] at hb2
        omega

/-- A clause of 101 identical characters. -/
def collisionClauseA : String := String.mk (List.replicate 101 'a')

/-- A clause agreeing with `collisionClauseA` on its first 100 characters
but differing at position 100. -/
def collisionClauseB : String :=
  String.mk (List.replicate 100 'a' ++ ['b'])

/-- Empty analysis facets. -/
def emptyFacets : AnalysisData :=
  { simplifiedExplanation := "", riskyTerms := [], governmentArticles := [] }

/-- A degenerate splitter returning its input whole (stands in for the
library text splitter in concrete runs). -/
def wholeSplit : String → List String := fun s => [s]

set_option maxRecDepth 100000 in
/-- C2 (counterexample): two different (clause, facets) inputs — clauses
agreeing on their first 100 characters — produce the same cache key, so the
second call returns the first call's cached entry instead of a distinct one,
refuting the claim that different inputs always yield distinct entries. -/
theorem createClauseVectorStore_c2_counterexample :
    collisionClauseA ≠ collisionClauseB ∧
    generateCacheKey collisionClauseA (some emptyFacets) =
      generateCacheKey collisionClauseB (some emptyFacets) ∧
    (createClauseVectorStore wholeSplit
        (createClauseVectorStore wholeSplit emptyCache collisionClauseA
          emptyFacets).2.1 collisionClauseB emptyFacets).1 =
      (createClauseVectorStore wholeSplit emptyCache collisionClauseA
        emptyFacets).1 ∧
    (createClauseVectorStore wholeSplit
        (createClauseVectorStore wholeSplit emptyCache collisionClauseA
          emptyFacets).2.1 collisionClauseB emptyFacets).2.2 = false := by
  refine ⟨by decide, by decide, by decide, by decide⟩

/-- Witness for C2 (amended) at a concrete empty cache. -/
theorem createClauseVectorStore_c2_witness :
    (createClauseVectorStore wholeSplit emptyCache "c"
        emptyFacets).2.1.entries.length ≤ 10 :=
  (createClauseVectorStore_c2 wholeSplit emptyCache "c" emptyFacets
    (by decide)).2.1

/-- Eleven concrete clauses, for the batch-size theorems. -/
def elevenClauses : List String :=
  (List.range 11).map (fun i => "clause " ++ toString i)

/-- C4 (counterexample): `processBatchClauses` called with 11 clauses under
the default configuration does not fail — it proceeds and issues the model
calls for all 11 clauses (three facet requests each), refuting the claimed
pre-flight batch-size ceiling.  The 10-clause ceiling lives only in the UI
demo component, outside this layer. -/
theorem processBatchClauses_c4_counterexample :
    elevenClauses.length = 11 ∧
    processBatchClauses defaultAPIConfig elevenClauses =
      Except.ok (analyzeBatchClauses elevenClauses) ∧
    (analyzeBatchClauses elevenClauses).length = 33 := by
  refine ⟨by decide, rfl, by decide⟩

/-- C4 (amended): `processBatchClauses` enforces only the two configuration
toggles pre-flight and imposes no batch-size ceiling: whenever both toggles
are on it succeeds and issues three model calls per clause, for any number
of clauses. -/
theorem processBatchClauses_c4 (config : APIConfig) (clauses : List String)
    (hlc : config.useLangChain = true)
    (hbp : config.enableBatchProcessing = true) :
    processBatchClauses config clauses =
      Except.ok (analyzeBatchClauses clauses) ∧
    (analyzeBatchClauses clauses).length = 3 * clauses.length := by
  constructor
  · simp [processBatchClauses, hlc, hbp]
  · induction clauses with
    | nil => rfl
    | cons c rest ih =>
        simp only [analyzeBatchClauses, analyzeClauseModelCalls,
          List.map_cons, List.flatten_cons, List.length_append,
          List.length_cons, List.length_nil] at ih ⊢
        omega

/-- Witness for C4 (amended) at the default configuration and 11 clauses. -/
theorem processBatchClauses_c4_witness :
    processBatchClauses defaultAPIConfig elevenClauses =
      Except.ok (analyzeBatchClauses elevenClauses) :=
  (processBatchClauses_c4 defaultAPIConfig elevenClauses rfl rfl).1

/-- C9: `processBatchClauses` proceeds exactly when both the LangChain and
batch-processing toggles are on; with LangChain off it fails with the error
naming the LangChain requirement (before any model call), with batch
processing off it fails with the error naming that toggle. -/
theorem processBatchClauses_c9 (config : APIConfig) (clauses : List String) :
    (config.useLangChain = false →
      processBatchClauses config clauses =
        Except.error "Batch processing is only available with LangChain API") ∧
    (config.useLangChain = true → config.enableBatchProcessing = false →
      processBatchClauses config clauses =
        Except.error "Batch processing is disabled in configuration") ∧
    (config.useLangChain = true → config.enableBatchProcessing = true →
      processBatchClauses config clauses =
        Except.ok (analyzeBatchClauses clauses)) :=
  ⟨fun h => by simp [processBatchClauses, h],
   fun h1 h2 => by simp [processBatchClauses, h1, h2],
   fun h1 h2 => by simp [processBatchClauses, h1, h2]⟩

/-- Witness for C9 with the LangChain toggle off. -/
theorem processBatchClauses_c9_witness :
    processBatchClauses
        { useLangChain := false, enableBatchProcessing := true,
          enableAdvancedPrompts := true, enableSemanticSearch := true }
        ["x"] =
      Except.error "Batch processing is only available with LangChain API" :=
  (processBatchClauses_c9
    { useLangChain := false, enableBatchProcessing := true,
      enableAdvancedPrompts := true, enableSemanticSearch := true }
    ["x"]).1 rfl

/-- Presence (truthiness) of all three risky-term fields, the filter of
`validateRiskyTerms`. -/
def hasAllTermFields (t : RawRiskyTerm) : Bool :=
  truthy t.term && truthy t.severity && truthy t.explanation

/-- The severity coercion of `validateRiskyTerms`: lowercase severities
among high/moderate/low pass through, anything else becomes moderate. -/
def coerceSeverity (s : String) : String :=
  if lowerString s = "high" ∨ lowerString s = "moderate" ∨
      lowerString s = "low" then
    lowerString s
  else "moderate"

/-- The severity coercion always lands in the three-valued enum. -/
theorem coerceSeverity_valid (s : String) :
    coerceSeverity s = "high" ∨ coerceSeverity s = "moderate" ∨
      coerceSeverity s = "low" := by
  unfold coerceSeverity
  by_cases h : lowerString s = "high" ∨ lowerString s = "moderate" ∨
      lowerString s = "low"
  · rw [if_pos h]
    exact h
  · rw [if_neg h]
    right
    left
    rfl

/-- C6: `validateRiskyTerms` coerces every kept item's severity into
{high, moderate, low} (unrecognized values become moderate) and keeps
exactly the items with all three fields present; in particular severity
`"EXTREME"` becomes `"moderate"`, and an item missing `explanation` is
dropped entirely. -/
theorem validateRiskyTerms_c6 (terms : List RawRiskyTerm) :
    (∀ o ∈ validateRiskyTerms terms,
      o.severity = "high" ∨ o.severity = "moderate" ∨ o.severity = "low") ∧
    validateRiskyTerms terms =
      (terms.filter hasAllTermFields).map (fun t =>
        { term := trimString (t.term.getD ""),
          severity := coerceSeverity (t.severity.getD ""),
          explanation := trimString (t.explanation.getD "") }) ∧
    validateRiskyTerms
        [{ term := some "x", severity := some "EXTREME",
           explanation := some "y" }] =
      [{ term := "x", severity := "moderate", explanation := "y" }] ∧
    validateRiskyTerms
        [{ term := some "x", severity := some "high",
           explanation := none }] = [] := by
  refine ⟨?_, rfl, by decide, by decide⟩
  intro o ho
  unfold validateRiskyTerms at ho
  obtain ⟨t, _, rfl⟩ := List.mem_map.mp ho
  exact coerceSeverity_valid (t.severity.getD "")

/-- Witness for C6 at the concrete EXTREME-severity item. -/
theorem validateRiskyTerms_c6_witness :
    validateRiskyTerms
        [{ term := some "x", severity := some "EXTREME",
           explanation := some "y" }] =
      [{ term := "x", severity := "moderate", explanation := "y" }] :=
  (validateRiskyTerms_c6 []).2.2.1

/-- Presence (truthiness) of all three legal-reference fields. -/
def hasAllArticleFields (a : RawArticle) : Bool :=
  truthy a.title && truthy a.url && truthy a.relevance

/-- The keep condition of `validateGovernmentArticles`: all fields present
and the url parses. -/
def keepArticle (a : RawArticle) : Bool :=
  hasAllArticleFields a && parsesAsURL (a.url.getD "")

/-- C7 (counterexample): a kept item is not returned verbatim — its fields
are whitespace-trimmed, so an item whose title carries surrounding spaces
comes back altered. -/
theorem validateGovernmentArticles_c7_counterexample :
    validateGovernmentArticles
        [{ title := some " t ", url := some "https://example.com",
           relevance := some "r" }] =
      [{ title := "t", url := "https://example.com", relevance := "r" }] ∧
    validateGovernmentArticles
        [{ title := some " t ", url := some "https://example.com",
           relevance := some "r" }] ≠
      [{ title := " t ", url := "https://example.com",
         relevance := "r" }] := by
  refine ⟨by decide, by decide⟩

/-- C7 (amended): `validateGovernmentArticles` keeps an item exactly when
title, url and relevance are all present and the url parses as an absolute
URL, returning kept items with each field whitespace-trimmed (hence
verbatim whenever the fields carry no surrounding whitespace); an item
whose url does not parse is dropped. -/
theorem validateGovernmentArticles_c7 (articles : List RawArticle) :
    validateGovernmentArticles articles =
      (articles.filter keepArticle).map (fun a =>
        { title := trimString (a.title.getD ""),
          url := trimString (a.url.getD ""),
          relevance := trimString (a.relevance.getD "") }) ∧
    (∀ a : RawArticle, keepArticle a = false →
      validateGovernmentArticles [a] = []) ∧
    validateGovernmentArticles
        [{ title := some "t", url := some "not-a-url",
           relevance := some "r" }] = [] ∧
    validateGovernmentArticles
        [{ title := some "t", url := some "https://example.com",
           relevance := some "r" }] =
      [{ title := "t", url := "https://example.com",
         relevance := "r" }] := by
  refine ⟨rfl, ?_, by decide, by decide⟩
  intro a h
  show (([a].filter keepArticle).map (fun a =>
      ({ title := trimString (a.title.getD ""),
         url := trimString (a.url.getD ""),
         relevance := trimString (a.relevance.getD "") } : ArticleItem))) = []
  rw [List.filter_cons, h]
  rfl

/-- Witness for C7 (amended) at the concrete malformed-URL item. -/
theorem validateGovernmentArticles_c7_witness :
    validateGovernmentArticles
        [{ title := some "t", url := some "not-a-url",
           relevance := some "r" }] = [] :=
  (validateGovernmentArticles_c7 []).2.2.1

/-- The configuration with semantic search disabled but LangChain on. -/
def semDisabledConfig : APIConfig :=
  { useLangChain := true, enableBatchProcessing := true,
    enableAdvancedPrompts := true, enableSemanticSearch := false }

/-- C5: with semantic retrieval disabled, LangChain orchestration enabled
and facets supplied, the follow-up wrapper routes to the LangChain path:
the richer prompt template instantiated with the full clause text, a single
chat-model call and no embedding-provider call of any kind. -/
theorem submitFollowupQuestion_c5 (config : APIConfig)
    (question originalClause : String) (d : AnalysisData)
    (storeApiKey : String) (cacheHit : Bool)
    (hsem : config.enableSemanticSearch = false)
    (hlc : config.useLangChain = true) :
    submitFollowupQuestion config question originalClause (some d) =
      FollowupRoute.langchain question originalClause ∧
    (∀ call ∈ routeProviderCalls storeApiKey cacheHit
        (submitFollowupQuestion config question originalClause (some d)),
      call.isEmbed = false) ∧
    (∃ pre post : String,
      langchainFollowupPrompt question originalClause =
        pre ++ originalClause ++ post) := by
  have hroute : submitFollowupQuestion config question originalClause
      (some d) = FollowupRoute.langchain question originalClause := by
    simp [submitFollowupQuestion, hsem, hlc]
  refine ⟨hroute, ?_, ?_⟩
  · intro call hc
    rw [hroute] at hc
    simp only [routeProviderCalls, List.mem_singleton] at hc
    rw [hc]
    rfl
  · refine ⟨"\nYou are a helpful legal assistant providing concise answers about legal clauses.\n\nOriginal Legal Clause: \"",
      "\"\n\nUser's Question: \"" ++ question ++ "\"\n\nInstructions:\n- Provide a CONCISE and DIRECT answer (2-3 sentences maximum)\n- Focus only on answering the specific question asked\n- Use simple, clear language that non-lawyers can understand\n- If it requires a yes/no answer, start with that\n- Stay focused on the legal clause context\n- Avoid unnecessary explanations or examples\n\nAnswer:\n", ?_⟩
    simp only [langchainFollowupPrompt, String.append_assoc]

/-- Witness for C5 at a concrete semantic-disabled configuration. -/
theorem submitFollowupQuestion_c5_witness :
    submitFollowupQuestion semDisabledConfig "q" "c" (some emptyFacets) =
      FollowupRoute.langchain "q" "c" :=
  (submitFollowupQuestion_c5 semDisabledConfig "q" "c" emptyFacets "k" false
    rfl rfl).1

/-- C10: with LangChain and semantic search both enabled and facets
supplied, the wrapper invokes the enhanced semantic path with the empty
string as API key (it never consults the credentials store for this path),
so the embeddings and chat-model instances of that path are constructed
with the empty key and every provider call it issues carries the empty
key. -/
theorem submitFollowupQuestion_c10 (config : APIConfig)
    (question originalClause : String) (d : AnalysisData)
    (storeApiKey : String) (cacheHit : Bool)
    (hlc : config.useLangChain = true)
    (hsem : config.enableSemanticSearch = true) :
    submitFollowupQuestion config question originalClause (some d) =
      FollowupRoute.enhanced question originalClause d "" ∧
    (createEmbeddings "").apiKey = "" ∧
    (createLLMInstance "").apiKey = "" ∧
    (∀ call ∈ routeProviderCalls storeApiKey cacheHit
        (FollowupRoute.enhanced question originalClause d ""),
      call = ProviderCall.embed "" ∨ call = ProviderCall.model "") := by
  refine ⟨by simp [submitFollowupQuestion, hlc, hsem], rfl, rfl, ?_⟩
  intro call hc
  cases cacheHit <;> simp [routeProviderCalls] at hc <;> tauto

/-- Witness for C10 at the default configuration. -/
theorem submitFollowupQuestion_c10_witness :
    submitFollowupQuestion defaultAPIConfig "q" "c" (some emptyFacets) =
      FollowupRoute.enhanced "q" "c" emptyFacets "" :=
  (submitFollowupQuestion_c10 defaultAPIConfig "q" "c" emptyFacets "k" false
    rfl rfl).1

/-- A model response whose fenced code block holds malformed JSON while a
well-formed array-like substring follows it. -/
def layerSkipResponse : String := "```[ x ]``` [ \x7b\"a\":\"b\"\x7d ]"

/-- C8 (counterexample): on a response whose fenced code block contains
unparseable bracketed text but which also contains a parseable array-like
substring, `parseJSONResponse` returns the fallback — it does not proceed to
the array-substring layer — while the spec's layered order would return the
parsed array.  The claimed strict layering therefore fails. -/
theorem parseJSONResponse_c8_counterexample :
    parseJSONResponse layerSkipResponse (Json.arr []) = Json.arr [] ∧
    parseJSONResponseSpec layerSkipResponse (Json.arr []) =
      Json.arr [Json.obj [("a", Json.str "b")]] ∧
    parseJSONResponse layerSkipResponse (Json.arr []) ≠
      parseJSONResponseSpec layerSkipResponse (Json.arr []) := by
  refine ⟨rfl, rfl, ?_⟩
  intro h
  rw [show parseJSONResponse layerSkipResponse (Json.arr []) =
      Json.arr [] from rfl,
    show parseJSONResponseSpec layerSkipResponse (Json.arr []) =
      Json.arr [Json.obj [("a", Json.str "b")]] from rfl] at h
  injection h with h1
  exact List.cons_ne_nil _ _ h1.symm

/-- C8 (amended): `parseJSONResponse` is total (never throws) and applies
its fallbacks in this order: a successful direct parse is returned; else,
if the fenced-block regex matches, the captured group's parse is returned
when it succeeds and the empty-list fallback otherwise (the array-substring
layer is skipped); only when no fenced block matches is the array-like
substring tried the same way; else the fallback.  Consequently the facet
assembly of `analyzeClause` degrades a malformed JSON facet to the empty
list instead of failing. -/
theorem parseJSONResponse_c8 (response : String) (fallback : Json) :
    (∀ v, jsonParse response = some v →
      parseJSONResponse response fallback = v) ∧
    (jsonParse response = none →
      ∀ g, extractCodeBlockArray response = some g →
        parseJSONResponse response fallback = (jsonParse g).getD fallback) ∧
    (jsonParse response = none → extractCodeBlockArray response = none →
      ∀ m, extractArrayLike response = some m →
        parseJSONResponse response fallback = (jsonParse m).getD fallback) ∧
    (jsonParse response = none → extractCodeBlockArray response = none →
      extractArrayLike response = none →
      parseJSONResponse response fallback = fallback) ∧
    (jsonParse response = none → extractCodeBlockArray response = none →
      extractArrayLike response = none →
      ∀ simplified govResponse,
        (assembleAnalysisResponse simplified response
            govResponse).riskyTerms = []) := by
  refine ⟨?_, ?_, ?_, ?_, ?_⟩
  · intro v hv
    unfold parseJSONResponse
    rw [hv]
  · intro h g hg
    unfold parseJSONResponse
    rw [h, hg]
  · intro h hg m hm
    unfold parseJSONResponse
    rw [h, hg, hm]
  · intro h hg hm
    unfold parseJSONResponse
    rw [h, hg, hm]
  · intro h hg hm simplified govResponse
    have hfb : parseJSONResponse response (Json.arr []) = Json.arr [] := by
      unfold parseJSONResponse
      rw [h, hg, hm]
    show validateRiskyTermsJson
      (parseJSONResponse response (Json.arr [])) = []
    rw [hfb]
    rfl

/-- Witness for C8 (amended): a plain unparseable response falls through
every layer to the empty-array fallback. -/
theorem parseJSONResponse_c8_witness :
    parseJSONResponse "garbage" (Json.arr []) = Json.arr [] :=
  (parseJSONResponse_c8 "garbage" (Json.arr [])).2.2.2.1 rfl rfl rfl

end LegalAdviser
